import Mathlib

/-!
Verification of the prefetching data-layer pipeline implemented in
src/caffe/layers/base_data_layer.cpp.

The file embeds the pipeline shallowly:
* the ten arrays of a prefetch slot (`Batch` in the C++ source) and the
  fixed order in which Forward_cpu visits them;
* the two hand-off queues and the worker/consumer interleaving as a
  transition system, for the concurrency invariants;
* Forward_cpu as a pure function on a layer state and a top vector;
* the worker thread entry and the setup routine as action traces.

The BlockingQueue class (caffe/util/blocking_queue.cpp) and the
InternalThread class are not part of the source tree given here; their
behaviour (FIFO order, blocking pop, interruption while blocked) is
modelled from the specification, as marked on each such definition.
-/

namespace Caffe

/-- The ten arrays held by one prefetch slot, in the fixed order in which
Forward_cpu reshapes and copies them (data_ to top[0], label_ to top[1],
label1_ .. label6_ to top[2] .. top[7], imageindex_ to top[8],
windowindex_ to top[9]). -/
inductive ArrayId where
  | data
  | label
  | label1
  | label2
  | label3
  | label4
  | label5
  | label6
  | imageindex
  | windowindex
deriving DecidableEq, Repr, Fintype

/-- The nine secondary arrays, in the fixed order of the source
(lines 131-139 and 141-158). -/
def secondaryArrays : List ArrayId :=
  [.label, .label1, .label2, .label3, .label4, .label5, .label6,
   .imageindex, .windowindex]

/-- All ten arrays in top order: the primary array first, then the nine
secondary arrays. -/
def allArrays : List ArrayId := ArrayId.data :: secondaryArrays

/-- Modelled from the spec: caffe/util/blocking_queue.cpp is not under the
given source tree. Section 4.2 specifies push as inserting at the tail,
never blocking. -/
def queuePush {α : Type} (q : List α) (x : α) : List α := q ++ [x]

/-- Modelled from the spec: Section 4.2 specifies pop as blocking until an
element is available and then removing and returning the head (FIFO). The
blocked case is represented by `none`. -/
def queuePop {α : Type} : List α → Option (α × List α)
  | [] => none
  | x :: xs => some (x, xs)

/-- BaseDataLayer::LayerSetUp (lines 17-30): the value assigned to
output_labels_, computed from the size of the top vector. -/
def BaseDataLayer.LayerSetUp (top_size : Nat) : Bool :=
  if top_size = 1 then false else true

/-!
## Transition system for the worker/consumer interleaving

A slot is identified by its index in the prefetch_ array (slots are never
copied, only pointers to them move); `seq` records the sequence number of
the batch most recently loaded into the slot by the worker, abstracting
the contents written by load_batch.
-/

/-- A prefetch slot: fixed identity `id` (its index in the prefetch_
array) and the sequence number of the batch last loaded into it. -/
structure Slot where
  id : Nat
  seq : Nat
deriving DecidableEq, Repr

/-- What the worker thread currently holds, following the loop body of
InternalThreadEntry (lines 98-108): after prefetch_free_.pop() it holds a
slot being filled; after load_batch (and, in GPU mode, the staging and
stream synchronization) it holds a loaded slot; after
prefetch_full_.push() it holds nothing. -/
inductive WorkerHold where
  | idle : WorkerHold
  | filling : Slot → WorkerHold
  | loaded : Slot → WorkerHold
deriving DecidableEq, Repr

/-- The slots the worker currently references. -/
def WorkerHold.slots : WorkerHold → List Slot
  | .idle => []
  | .filling s => [s]
  | .loaded s => [s]

/-- The sequence numbers already stamped into a slot the worker holds but
has not yet pushed onto the full queue. -/
def WorkerHold.loadedSeqs : WorkerHold → List Nat
  | .loaded s => [s.seq]
  | _ => []

/-- The slots an `Option Slot` (the consumer hand) references. -/
def optSlots : Option Slot → List Slot
  | none => []
  | some s => [s]

/-- The sequence numbers an `Option Slot` references. -/
def optSeqs : Option Slot → List Nat
  | none => []
  | some s => [s.seq]

/-- Global state of one pipeline instance: the two queues (FIFO lists,
head = next element popped), the slot each thread holds, the number of
batches the (deterministic) loader has produced so far, and the sequence
numbers the consumer has observed, in observation order. -/
structure PipelineState where
  free : List Slot
  full : List Slot
  worker : WorkerHold
  consumer : Option Slot
  nextSeq : Nat
  delivered : List Nat
deriving DecidableEq, Repr

/-- State after the BasePrefetchingDataLayer constructor (lines 32-40):
all `n` slots (`n` = PREFETCH_COUNT) are pushed onto the free queue in
index order; nothing is held, nothing has been loaded or delivered. -/
def initState (n : Nat) : PipelineState :=
  { free := (List.range n).map (fun i => ⟨i, 0⟩)
  , full := []
  , worker := .idle
  , consumer := none
  , nextSeq := 0
  , delivered := [] }

/-- One atomic step of either thread, at the granularity of the queue
operations in InternalThreadEntry (lines 98-108) and Forward_cpu
(lines 119-162). The worker pops a free slot, loads it (stamping the next
sequence number, the abstraction of a deterministic load_batch), and
pushes it full; the consumer pops a full slot, then copies it out and
pushes it free. -/
inductive Step : PipelineState → PipelineState → Prop where
  | workerPop (s : Slot) (fr fu : List Slot) (c : Option Slot) (n : Nat)
      (d : List Nat) :
      Step ⟨s :: fr, fu, .idle, c, n, d⟩ ⟨fr, fu, .filling s, c, n, d⟩
  | workerLoad (fr fu : List Slot) (s : Slot) (c : Option Slot) (n : Nat)
      (d : List Nat) :
      Step ⟨fr, fu, .filling s, c, n, d⟩
        ⟨fr, fu, .loaded ⟨s.id, n⟩, c, n + 1, d⟩
  | workerPush (fr fu : List Slot) (s : Slot) (c : Option Slot) (n : Nat)
      (d : List Nat) :
      Step ⟨fr, fu, .loaded s, c, n, d⟩ ⟨fr, queuePush fu s, .idle, c, n, d⟩
  | consumerPop (fr : List Slot) (s : Slot) (fu : List Slot)
      (w : WorkerHold) (n : Nat) (d : List Nat) :
      Step ⟨fr, s :: fu, w, none, n, d⟩ ⟨fr, fu, w, some s, n, d⟩
  | consumerPush (fr fu : List Slot) (w : WorkerHold) (s : Slot) (n : Nat)
      (d : List Nat) :
      Step ⟨fr, fu, w, some s, n, d⟩
        ⟨queuePush fr s, fu, w, none, n, d ++ [s.seq]⟩

/-- States reachable from the freshly constructed pipeline with `n`
slots. -/
def Reachable (n : Nat) (st : PipelineState) : Prop :=
  Relation.ReflTransGen Step (initState n) st

/-- The identities of all slots a state references, across the four
places a slot can be: free queue, worker hand, full queue, consumer
hand. -/
def PipelineState.slotIds (st : PipelineState) : List Nat :=
  st.free.map Slot.id ++ (st.worker.slots.map Slot.id
    ++ (st.full.map Slot.id ++ (optSlots st.consumer).map Slot.id))

/-- The sequence numbers of all loaded batches a state references, in
pipeline order: already delivered, being drained, waiting in the full
queue, loaded but not yet pushed. -/
def PipelineState.seqTrace (st : PipelineState) : List Nat :=
  st.delivered ++ (optSeqs st.consumer ++ (st.full.map Slot.seq
    ++ st.worker.loadedSeqs))

/-!
## Functional model of Forward_cpu

A Blob is modelled by its shape and its flat contents; count() is the
product of the shape dimensions. A Batch holds the ten blobs of a
prefetch slot.
-/

/-- A Blob: shape plus flat contents. In the source, count() is the
number of elements, the product of the shape dimensions. -/
structure Blob where
  shape : List Nat
  contents : List Int
deriving DecidableEq, Repr

/-- Blob::count(): the number of elements given by the shape. -/
def Blob.count (b : Blob) : Nat := b.shape.prod

/-- A blob is well formed when its storage holds exactly count()
elements. -/
def Blob.WF (b : Blob) : Prop := b.contents.length = b.count

instance (b : Blob) : Decidable b.WF := by
  unfold Blob.WF; infer_instance

/-- Blob::ReshapeLike: adopt the shape of the source blob, resizing the
backing store as needed; prior contents are not meaningful afterwards
(modelled as kept, since every call site overwrites them at once with
caffe_copy). -/
def Blob.reshapeLike (dst src : Blob) : Blob := { dst with shape := src.shape }

/-- caffe_copy(count, src, dst): writes the first `count` elements of
`src` into `dst`. At every call site in Forward_cpu, `count` is the full
element count of both blobs, whose shapes were just made equal by
ReshapeLike, so the destination contents become exactly the copied
region. -/
def caffe_copy (count : Nat) (src : List Int) (dst : Blob) : Blob :=
  { dst with contents := src.take count }

/-- The reshape-then-copy pair Forward_cpu performs for each destination:
top[i]->ReshapeLike(slot blob) followed by caffe_copy(count, cpu_data,
mutable_cpu_data). -/
def reshapeAndCopy (dst src : Blob) : Blob :=
  caffe_copy src.count src.contents (dst.reshapeLike src)

/-- A prefetch slot contents (struct Batch): the primary data blob and
the nine secondary blobs. -/
structure Batch where
  data_ : Blob
  label_ : Blob
  label1_ : Blob
  label2_ : Blob
  label3_ : Blob
  label4_ : Blob
  label5_ : Blob
  label6_ : Blob
  imageindex_ : Blob
  windowindex_ : Blob
deriving DecidableEq, Repr

/-- The blob of a batch selected by array identifier, in top order. -/
def Batch.arr : Batch → ArrayId → Blob
  | b, .data => b.data_
  | b, .label => b.label_
  | b, .label1 => b.label1_
  | b, .label2 => b.label2_
  | b, .label3 => b.label3_
  | b, .label4 => b.label4_
  | b, .label5 => b.label5_
  | b, .label6 => b.label6_
  | b, .imageindex => b.imageindex_
  | b, .windowindex => b.windowindex_

/-- A batch is well formed when all ten blobs are. -/
def Batch.WF (b : Batch) : Prop := ∀ a ∈ allArrays, (b.arr a).WF

instance (b : Batch) : Decidable b.WF := by
  unfold Batch.WF; infer_instance

/-- The queue state of a BasePrefetchingDataLayer relevant to
Forward_cpu, with the slots represented by their contents. -/
structure LayerState where
  prefetch_free_ : List Batch
  prefetch_full_ : List Batch
  output_labels_ : Bool
deriving DecidableEq, Repr

/-- An empty placeholder blob, used only as the default of the (never
taken) out-of-range list accesses below. -/
def emptyBlob : Blob := ⟨[], []⟩

/-- BasePrefetchingDataLayer::Forward_cpu (lines 119-162): pop a slot
from the full queue (blocking, modelled as `none` when it would block),
reshape top[0] to the slot data blob and copy its contents, and, when
output_labels_ is set, reshape top[1]..top[9] to the nine secondary
blobs (lines 131-139) and copy their contents (lines 141-158), then push
the slot back onto the free queue. The source performs the nine
secondary reshapes before the nine copies; each reshape/copy pair
touches only its own top entry, so the composition below, per
destination in the same fixed order, yields the identical top vector. -/
def Forward_cpu (st : LayerState) (top : List Blob) :
    Option (LayerState × List Blob) :=
  match queuePop st.prefetch_full_ with
  | none => none
  | some (batch, rest) =>
    let top0 := top.set 0 (reshapeAndCopy (top.getD 0 emptyBlob) batch.data_)
    let top9 :=
      if st.output_labels_ then
        let t1 := top0.set 1 (reshapeAndCopy (top0.getD 1 emptyBlob) batch.label_)
        let t2 := t1.set 2 (reshapeAndCopy (t1.getD 2 emptyBlob) batch.label1_)
        let t3 := t2.set 3 (reshapeAndCopy (t2.getD 3 emptyBlob) batch.label2_)
        let t4 := t3.set 4 (reshapeAndCopy (t3.getD 4 emptyBlob) batch.label3_)
        let t5 := t4.set 5 (reshapeAndCopy (t4.getD 5 emptyBlob) batch.label4_)
        let t6 := t5.set 6 (reshapeAndCopy (t5.getD 6 emptyBlob) batch.label5_)
        let t7 := t6.set 7 (reshapeAndCopy (t6.getD 7 emptyBlob) batch.label6_)
        let t8 := t7.set 8 (reshapeAndCopy (t7.getD 8 emptyBlob) batch.imageindex_)
        t8.set 9 (reshapeAndCopy (t8.getD 9 emptyBlob) batch.windowindex_)
      else top0
    some (⟨queuePush st.prefetch_free_ batch, rest, st.output_labels_⟩, top9)

/-- A tiny concrete blob used to evaluate the accessor theorems. -/
def sampleBlob : Blob := ⟨[2], [3, 4]⟩

/-- A tiny concrete batch (all ten blobs identical) used to evaluate the
accessor theorems. -/
def sampleBatch : Batch :=
  ⟨sampleBlob, sampleBlob, sampleBlob, sampleBlob, sampleBlob, sampleBlob,
   sampleBlob, sampleBlob, sampleBlob, sampleBlob⟩

/-- A ten-entry top vector of initially empty destination blobs. -/
def sampleTop : List Blob := List.replicate 10 ⟨[], []⟩

/-- A layer state whose full queue holds exactly the sample batch. -/
def sampleState (ol : Bool) : LayerState := ⟨[], [sampleBatch], ol⟩

/-!
## Operation traces

The order in which the accessor, the worker loop body, and the setup
routine perform their operations, read off the source line by line.
-/

/-- The operations Forward_cpu performs, in source order. -/
inductive AccessorAction where
  | popFull (diagnostic : String)
  | reshape (arr : ArrayId)
  | copy (arr : ArrayId)
  | pushFree
deriving DecidableEq, Repr

/-- The operation sequence of Forward_cpu (lines 119-162): the
diagnostic-labelled blocking pop (line 122), reshape of top[0] (124) and
copy of the data blob (126), then — only when output_labels_ is set —
the nine secondary reshapes (131-139) followed by the nine secondary
copies (141-158), and finally the push back onto the free queue
(line 161). -/
def forwardActions (output_labels : Bool) : List AccessorAction :=
  [.popFull "Data layer prefetch queue empty", .reshape .data, .copy .data]
    ++ (if output_labels then
          secondaryArrays.map .reshape ++ secondaryArrays.map .copy
        else [])
    ++ [.pushFree]

/-- The operations of one iteration of the worker loop body, in source
order. -/
inductive WorkerAction where
  | popFree
  | loadBatch
  | asyncGpuPush (arr : ArrayId)
  | streamSynchronize
  | pushFull
deriving DecidableEq, Repr

/-- One iteration of the loop body of InternalThreadEntry
(lines 98-108): pop a free slot (99), load_batch (100), in GPU mode
stage the data blob asynchronously on the per-worker stream (103) and
synchronize that stream (104), then push the slot full (107). The body
does not consult output_labels_ at all, and the only async_gpu_push is
on batch->data_. -/
def workerLoopBody (gpuMode : Bool) : List WorkerAction :=
  [.popFree, .loadBatch]
    ++ (if gpuMode then [.asyncGpuPush .data, .streamSynchronize] else [])
    ++ [.pushFull]

/-!
## The worker thread entry

Each iteration of the while loop starts with a blocking pop of the free
queue; the list of `ThreadEvent`s records, per started iteration, whether
that pop returned a slot or was interrupted by thread cancellation.
Exhaustion of the list models must_stop() turning true. Modelled from the
spec where it concerns the missing InternalThread/BlockingQueue classes:
section 4.2 requires the blocked pop to propagate cancellation, and
section 4.3 the loop to observe the stop request at iteration
granularity. -/
inductive ThreadEvent where
  | popOk
  | popInterrupted
deriving DecidableEq, Repr

/-- Exceptions that can unwind out of the worker loop. In this source the
only one is boost::thread_interrupted, thrown by the interrupted blocking
pop; CUDA_CHECK and a failing loader abort the process instead of
throwing. -/
inductive WorkerExc where
  | threadInterrupted
  | otherFailure (description : String)
deriving DecidableEq, Repr

/-- The while loop of InternalThreadEntry (lines 98-108): returns how
many batches were pushed onto the full queue and the exception, if any,
that unwound out of the loop. An interrupted pop ends the iteration and
the loop immediately; later events are never reached. -/
def prefetchLoop : List ThreadEvent → Nat × Option WorkerExc
  | [] => (0, none)
  | .popOk :: rest =>
      let r := prefetchLoop rest
      (r.1 + 1, r.2)
  | .popInterrupted :: _ => (0, some .threadInterrupted)

/-- Observable outcome of one run of InternalThreadEntry. -/
structure ThreadOutcome where
  streamCreated : Bool
  streamDestroyed : Bool
  batchesPushed : Nat
  interruptedCaught : Bool
  excEscaped : Option WorkerExc
deriving DecidableEq, Repr

/-- InternalThreadEntry (lines 88-117): create the per-worker stream in
GPU mode (91-94), run the loop inside try (97-108), catch exactly
boost::thread_interrupted and swallow it (109-111), destroy the stream
in GPU mode (112-116). Any other exception would propagate out of the
function before the stream destruction runs. -/
def InternalThreadEntry (gpuMode : Bool) (events : List ThreadEvent) :
    ThreadOutcome :=
  let r := prefetchLoop events
  match r.2 with
  | none =>
      { streamCreated := gpuMode, streamDestroyed := gpuMode
        batchesPushed := r.1, interruptedCaught := false, excEscaped := none }
  | some .threadInterrupted =>
      { streamCreated := gpuMode, streamDestroyed := gpuMode
        batchesPushed := r.1, interruptedCaught := true, excEscaped := none }
  | some (.otherFailure s) =>
      { streamCreated := gpuMode, streamDestroyed := false
        batchesPushed := r.1, interruptedCaught := false
        excEscaped := some (.otherFailure s) }

/-!
## The setup routine
-/

/-- The operations of BasePrefetchingDataLayer::LayerSetUp, in source
order. -/
inductive SetupAction where
  | baseLayerSetUp
  | touchHostStore (slot : Nat) (arr : ArrayId)
  | touchDeviceStore (slot : Nat) (arr : ArrayId)
  | initRand
  | startInternalThread
deriving DecidableEq, Repr

/-- The host warm-up loop (lines 50-63): for each slot index,
mutable_cpu_data on the data blob, and on all nine secondary blobs when
output_labels_ is set. -/
def hostWarmUp (output_labels : Bool) (prefetch_count : Nat) :
    List SetupAction :=
  (List.range prefetch_count).flatMap fun i =>
    SetupAction.touchHostStore i .data ::
      (if output_labels then
        secondaryArrays.map (SetupAction.touchHostStore i) else [])

/-- The device warm-up loop (lines 66-79), run only in GPU mode: for
each slot index, mutable_gpu_data on the data blob, and on all nine
secondary blobs when output_labels_ is set. -/
def deviceWarmUp (output_labels : Bool) (prefetch_count : Nat) :
    List SetupAction :=
  (List.range prefetch_count).flatMap fun i =>
    SetupAction.touchDeviceStore i .data ::
      (if output_labels then
        secondaryArrays.map (SetupAction.touchDeviceStore i) else [])

/-- Everything BasePrefetchingDataLayer::LayerSetUp (lines 42-86) does
before starting the worker: the base LayerSetUp call (45), the host
warm-up loop (50-63), the device warm-up loop in GPU mode (64-81), and
InitRand (83). -/
def setupWarmUpActions (output_labels gpuMode : Bool)
    (prefetch_count : Nat) : List SetupAction :=
  SetupAction.baseLayerSetUp :: hostWarmUp output_labels prefetch_count
    ++ (if gpuMode then deviceWarmUp output_labels prefetch_count else [])
    ++ [SetupAction.initRand]

/-- BasePrefetchingDataLayer::LayerSetUp (lines 42-86) as its operation
sequence: all warm-up work, then StartInternalThread (line 84) as the
very last operation. -/
def BasePrefetchingDataLayer.LayerSetUp (output_labels gpuMode : Bool)
    (prefetch_count : Nat) : List SetupAction :=
  setupWarmUpActions output_labels gpuMode prefetch_count
    ++ [SetupAction.startInternalThread]

/-!
## Theorems: concurrency invariants (C1, C2, C3)
-/

/-- Every step of either thread permutes the slot identities: a step only
moves one slot reference between the four places. -/
theorem slotIds_perm_of_step {a b : PipelineState} (h : Step a b) :
    a.slotIds.Perm b.slotIds := by
  cases h with
  | workerPop s fr fu c n d =>
      simp only [PipelineState.slotIds, WorkerHold.slots, List.map_cons,
        List.map_nil, List.cons_append, List.nil_append]
      exact List.perm_middle.symm
  | workerLoad fr fu s c n d =>
      exact List.Perm.refl _
  | workerPush fr fu s c n d =>
      simp only [PipelineState.slotIds, WorkerHold.slots, queuePush,
        List.map_cons, List.map_nil, List.map_append, List.cons_append,
        List.nil_append, List.append_assoc, List.singleton_append]
      exact List.Perm.append_left _ List.perm_middle.symm
  | consumerPop fr s fu w n d =>
      simp only [PipelineState.slotIds, optSlots, List.map_cons,
        List.map_nil, List.cons_append, List.nil_append, List.append_nil,
        List.append_assoc]
      exact List.Perm.append_left _ (List.Perm.append_left _
        (List.perm_append_singleton _ _).symm)
  | consumerPush fr fu w s n d =>
      simp only [PipelineState.slotIds, optSlots, queuePush, List.map_cons,
        List.map_nil, List.map_append, List.cons_append, List.nil_append,
        List.append_nil, List.append_assoc, List.singleton_append]
      refine List.Perm.append_left _ ?_
      rw [← List.append_assoc]
      exact List.perm_append_singleton _ _

/-- In every reachable state the slot identities, across the four places,
are a permutation of the `n` identities created by the constructor. -/
theorem reachable_slotIds_perm {n : Nat} {st : PipelineState}
    (h : Reachable n st) : st.slotIds.Perm (List.range n) := by
  induction h with
  | refl =>
      simp only [initState, PipelineState.slotIds, WorkerHold.slots, optSlots,
        List.map_map, List.map_nil, List.append_nil, List.nil_append]
      rw [show (Slot.id ∘ fun i : Nat => (⟨i, 0⟩ : Slot)) = id from rfl,
        List.map_id]
  | tail hab hbc ih => exact ((slotIds_perm_of_step hbc).symm.trans ih)

/-- C1. Slot conservation: in every reachable state of the pipeline, each
of the `n` (PREFETCH_COUNT) slots pushed onto the free queue by the
constructor is referenced by exactly one of free queue, full queue,
worker hand, consumer hand (count 1, never 0, never 2), and the total
count of slot references across the four places is `n`. -/
theorem slot_conservation {n : Nat} {st : PipelineState}
    (h : Reachable n st) :
    st.slotIds.length = n ∧
      (∀ i, i < n → st.slotIds.count i = 1) ∧
      (∀ i, i ∈ st.slotIds → i < n) := by
  have hp := reachable_slotIds_perm h
  refine ⟨by simpa using hp.length_eq, fun i hi => ?_, fun i hi => ?_⟩
  · exact List.count_eq_one_of_mem (hp.nodup_iff.mpr (List.nodup_range n))
      (hp.mem_iff.mpr (List.mem_range.mpr hi))
  · exact List.mem_range.mp (hp.mem_iff.mp hi)

/-- C1 witness: the conservation statement evaluated at the freshly
constructed pipeline with 3 slots. -/
theorem slot_conservation_witness :
    (initState 3).slotIds.length = 3 ∧
      (∀ i, i < 3 → (initState 3).slotIds.count i = 1) ∧
      (∀ i, i ∈ (initState 3).slotIds → i < 3) :=
  slot_conservation (n := 3) Relation.ReflTransGen.refl

/-- Every step preserves the sequence-number invariant: the numbers
delivered, being drained, queued full and loaded-but-unpushed form, in
that order, exactly the initial segment of naturals below nextSeq. -/
theorem seqTrace_step {a b : PipelineState} (hab : Step a b)
    (ha : a.seqTrace = List.range a.nextSeq) :
    b.seqTrace = List.range b.nextSeq := by
  cases hab with
  | workerPop s fr fu c n d =>
      simpa only [PipelineState.seqTrace, WorkerHold.loadedSeqs] using ha
  | workerLoad fr fu s c n d =>
      simp only [PipelineState.seqTrace, WorkerHold.loadedSeqs,
        List.append_nil] at ha
      simp only [PipelineState.seqTrace, WorkerHold.loadedSeqs,
        List.range_succ, ← List.append_assoc, ha]
  | workerPush fr fu s c n d =>
      simp only [PipelineState.seqTrace, WorkerHold.loadedSeqs, queuePush,
        List.map_append, List.map_cons, List.map_nil, List.append_nil,
        List.append_assoc] at ha ⊢
      exact ha
  | consumerPop fr s fu w n d =>
      simp only [PipelineState.seqTrace, optSeqs, List.map_cons,
        List.nil_append, List.cons_append, List.singleton_append] at ha ⊢
      exact ha
  | consumerPush fr fu w s n d =>
      simp only [PipelineState.seqTrace, optSeqs, List.nil_append,
        List.singleton_append, List.cons_append, List.append_assoc] at ha ⊢
      exact ha

/-- In every reachable state, the delivered, draining, full-queued and
loaded sequence numbers are exactly 0, 1, ..., nextSeq - 1 in pipeline
order. -/
theorem reachable_seqTrace {n : Nat} {st : PipelineState}
    (h : Reachable n st) : st.seqTrace = List.range st.nextSeq := by
  induction h with
  | refl => rfl
  | tail hab hbc ih => exact seqTrace_step hbc ih

/-- C2. Ordering: with the deterministic loader that stamps the k-th
produced batch with sequence number k, every reachable state has the
consumer-observed sequence numbers equal to 0, 1, ..., len-1: strictly
increasing, no gaps, no repeats, and uniquely determined (deterministic)
— delivery order equals production order. -/
theorem delivered_in_production_order {n : Nat} {st : PipelineState}
    (h : Reachable n st) :
    st.delivered = List.range st.delivered.length ∧
      st.delivered.Sorted (· < ·) := by
  have htr := reachable_seqTrace h
  have hpref : st.delivered = List.range st.delivered.length := by
    have hlen : st.delivered.length ≤ st.nextSeq := by
      have := congrArg List.length htr
      simp only [PipelineState.seqTrace, List.length_append,
        List.length_range] at this
      omega
    have htake : (st.delivered ++ (optSeqs st.consumer
        ++ (st.full.map Slot.seq ++ st.worker.loadedSeqs))).take
          st.delivered.length = st.delivered := List.take_left _ _
    rw [show st.delivered ++ (optSeqs st.consumer ++ (st.full.map Slot.seq
        ++ st.worker.loadedSeqs)) = st.seqTrace from rfl, htr,
      List.take_range, Nat.min_eq_left hlen] at htake
    exact htake.symm
  refine ⟨hpref, ?_⟩
  rw [hpref]
  exact List.sorted_lt_range _

/-- C2 witness: the ordering statement at the initial state with 3 slots,
where nothing has been delivered yet. -/
theorem delivered_in_production_order_witness :
    (initState 3).delivered =
        List.range (initState 3).delivered.length ∧
      (initState 3).delivered.Sorted (· < ·) :=
  delivered_in_production_order (n := 3) Relation.ReflTransGen.refl

/-- C3. No concurrent mutation: in every reachable state, if the worker
holds a slot (being filled) and the consumer holds a slot (being
drained), they are different slots. The worker writes only through the
pointer it popped from the free queue and the consumer reads only through
the pointer it popped from the full queue, so no slot is ever read and
written concurrently by the two threads. -/
theorem no_concurrent_slot_ownership {n : Nat} {st : PipelineState}
    {ws cs : Slot} (h : Reachable n st)
    (hw : st.worker.slots = [ws]) (hc : st.consumer = some cs) :
    ws.id ≠ cs.id := by
  have hp := reachable_slotIds_perm h
  have hnd : st.slotIds.Nodup := hp.nodup_iff.mpr (List.nodup_range n)
  simp only [PipelineState.slotIds, hw, hc, optSlots, List.map_cons,
    List.map_nil, List.nodup_append, List.singleton_append,
    List.nodup_cons, List.disjoint_cons_right, List.mem_append,
    List.mem_cons, List.mem_singleton] at hnd
  intro heq
  have : ws.id ∈ [ws.id] := List.mem_singleton.mpr rfl
  tauto

/-- C3 witness: in the reachable state where the worker has published
slot 0, popped slot 1 for filling, and the consumer has popped slot 0 for
draining, the two held slots are distinct. -/
theorem no_concurrent_slot_ownership_witness :
    (Slot.mk 1 0).id ≠ (Slot.mk 0 0).id :=
  @no_concurrent_slot_ownership 3
    ⟨[⟨2, 0⟩], [], .filling ⟨1, 0⟩, some ⟨0, 0⟩, 1, []⟩ ⟨1, 0⟩ ⟨0, 0⟩
    (((((Relation.ReflTransGen.refl.tail
        (Step.workerPop ⟨0, 0⟩ [⟨1, 0⟩, ⟨2, 0⟩] [] none 0 [])).tail
        (Step.workerLoad [⟨1, 0⟩, ⟨2, 0⟩] [] ⟨0, 0⟩ none 0 [])).tail
        (Step.workerPush [⟨1, 0⟩, ⟨2, 0⟩] [] ⟨0, 0⟩ none 1 [])).tail
        (Step.workerPop ⟨1, 0⟩ [⟨2, 0⟩] [⟨0, 0⟩] none 1 [])).tail
        (Step.consumerPop [⟨2, 0⟩] ⟨0, 0⟩ [] (.filling ⟨1, 0⟩) 1 []))
    rfl rfl

/-!
## Theorems: setup, worker loop, thread entry (C6, C7, C8, C9, C10)
-/

/-- C6. Output-labels negotiation: every call of
BaseDataLayer::LayerSetUp assigns output_labels_ = false exactly when
the top vector has exactly one blob, and true otherwise. -/
theorem output_labels_negotiation (top_size : Nat) :
    (BaseDataLayer.LayerSetUp top_size = false ↔ top_size = 1) ∧
      (BaseDataLayer.LayerSetUp top_size = true ↔ top_size ≠ 1) := by
  unfold BaseDataLayer.LayerSetUp
  by_cases h : top_size = 1 <;> simp [h]

/-- C6 witness: with a single-blob top vector the negotiation yields
false. -/
theorem output_labels_negotiation_witness :
    (BaseDataLayer.LayerSetUp 1 = false ↔ 1 = 1) ∧
      (BaseDataLayer.LayerSetUp 1 = true ↔ 1 ≠ 1) :=
  output_labels_negotiation 1

/-- C7. Device-staging synchronization: with device staging (GPU mode)
enabled, every iteration of the worker loop body performs the
asynchronous transfer of the slot data to the device and then the
synchronization of the per-worker stream, both strictly before the push
onto the full queue — a slot is never declared full while its transfer
is in flight. -/
theorem staging_sync_before_push (g : Bool) (hg : g = true) :
    WorkerAction.asyncGpuPush .data ∈ workerLoopBody g ∧
      WorkerAction.streamSynchronize ∈ workerLoopBody g ∧
      (workerLoopBody g).indexOf (WorkerAction.asyncGpuPush .data) <
        (workerLoopBody g).indexOf WorkerAction.streamSynchronize ∧
      (workerLoopBody g).indexOf WorkerAction.streamSynchronize <
        (workerLoopBody g).indexOf WorkerAction.pushFull := by
  subst hg
  decide

/-- C7 witness: the staging/synchronization ordering evaluated in GPU
mode. -/
theorem staging_sync_before_push_witness :
    WorkerAction.asyncGpuPush .data ∈ workerLoopBody true ∧
      WorkerAction.streamSynchronize ∈ workerLoopBody true ∧
      (workerLoopBody true).indexOf (WorkerAction.asyncGpuPush .data) <
        (workerLoopBody true).indexOf WorkerAction.streamSynchronize ∧
      (workerLoopBody true).indexOf WorkerAction.streamSynchronize <
        (workerLoopBody true).indexOf WorkerAction.pushFull :=
  staging_sync_before_push true rfl

/-- C10. Frame effect of prefetch staging: any asynchronous device push
the worker loop body performs is on the primary data array; none of the
nine secondary arrays is ever staged by the worker, in any mode — the
loop body does not depend on output_labels_ at all, so this also holds
with labels enabled. The secondary arrays reach the consumer only
through the host-side copies Forward_cpu performs when labels are
enabled. -/
theorem only_primary_staged :
    (∀ g : Bool, ∀ a : ArrayId,
        WorkerAction.asyncGpuPush a ∈ workerLoopBody g → a = .data) ∧
      (∀ g : Bool, ∀ a ∈ secondaryArrays,
        WorkerAction.asyncGpuPush a ∉ workerLoopBody g) ∧
      (∀ a ∈ secondaryArrays, AccessorAction.copy a ∈ forwardActions true) := by
  decide

/-- A thread interruption delivered at any blocking free-queue pop makes
the while loop unwind with boost::thread_interrupted. -/
theorem prefetchLoop_interrupted {events : List ThreadEvent}
    (h : ThreadEvent.popInterrupted ∈ events) :
    (prefetchLoop events).2 = some WorkerExc.threadInterrupted := by
  induction events with
  | nil => cases h
  | cons e rest ih =>
      cases e with
      | popOk =>
          have h2 : ThreadEvent.popInterrupted ∈ rest := by
            rcases List.mem_cons.mp h with h1 | h1
            · exact absurd h1 (by decide)
            · exact h1
          simp [prefetchLoop, ih h2]
      | popInterrupted => simp [prefetchLoop]

/-- C8. Expected cancellation: if thread interruption is delivered at a
blocked free-queue pop during the run, InternalThreadEntry catches it —
no exception escapes, it is not treated as an error — and the per-worker
transfer stream created in GPU mode is still destroyed before the
function returns. -/
theorem interruption_caught_and_cleaned_up (g : Bool)
    (events : List ThreadEvent)
    (h : ThreadEvent.popInterrupted ∈ events) :
    (InternalThreadEntry g events).interruptedCaught = true ∧
      (InternalThreadEntry g events).excEscaped = none ∧
      (InternalThreadEntry g events).streamCreated = g ∧
      (InternalThreadEntry g events).streamDestroyed = g := by
  simp [InternalThreadEntry, prefetchLoop_interrupted h]

/-- C8 witness: a run in GPU mode that loads one batch and is then
interrupted while blocked on the free queue. -/
theorem interruption_caught_and_cleaned_up_witness :
    (InternalThreadEntry true [.popOk, .popInterrupted]).interruptedCaught
        = true ∧
      (InternalThreadEntry true [.popOk, .popInterrupted]).excEscaped
        = none ∧
      (InternalThreadEntry true [.popOk, .popInterrupted]).streamCreated
        = true ∧
      (InternalThreadEntry true [.popOk, .popInterrupted]).streamDestroyed
        = true :=
  interruption_caught_and_cleaned_up true [.popOk, .popInterrupted]
    (by decide)

/-- Membership of the primary host touch in the host warm-up loop. -/
theorem mem_hostWarmUp_data {i N : Nat} (hi : i < N) (ol : Bool) :
    SetupAction.touchHostStore i .data ∈ hostWarmUp ol N :=
  List.mem_flatMap.mpr ⟨i, List.mem_range.mpr hi, List.mem_cons_self _ _⟩

/-- Membership of every host touch in the host warm-up loop when labels
are enabled. -/
theorem mem_hostWarmUp {i N : Nat} (hi : i < N) {a : ArrayId}
    (ha : a ∈ allArrays) :
    SetupAction.touchHostStore i a ∈ hostWarmUp true N := by
  refine List.mem_flatMap.mpr ⟨i, List.mem_range.mpr hi, ?_⟩
  rcases List.mem_cons.mp ha with h1 | h1
  · subst h1
    exact List.mem_cons_self _ _
  · exact List.mem_cons_of_mem _ (by
      simp only [if_true]
      exact List.mem_map_of_mem _ h1)

/-- Membership of the primary device touch in the device warm-up loop. -/
theorem mem_deviceWarmUp_data {i N : Nat} (hi : i < N) (ol : Bool) :
    SetupAction.touchDeviceStore i .data ∈ deviceWarmUp ol N :=
  List.mem_flatMap.mpr ⟨i, List.mem_range.mpr hi, List.mem_cons_self _ _⟩

/-- Membership of every device touch in the device warm-up loop when
labels are enabled. -/
theorem mem_deviceWarmUp {i N : Nat} (hi : i < N) {a : ArrayId}
    (ha : a ∈ allArrays) :
    SetupAction.touchDeviceStore i a ∈ deviceWarmUp true N := by
  refine List.mem_flatMap.mpr ⟨i, List.mem_range.mpr hi, ?_⟩
  rcases List.mem_cons.mp ha with h1 | h1
  · subst h1
    exact List.mem_cons_self _ _
  · exact List.mem_cons_of_mem _ (by
      simp only [if_true]
      exact List.mem_map_of_mem _ h1)

/-- C9. Setup warm-up ordering: BasePrefetchingDataLayer::LayerSetUp is
the warm-up work followed by StartInternalThread as its very last
operation; the warm-up pre-touches the host storage of the primary
array of every slot, of every secondary array too when labels are
enabled, and likewise the device storage when device staging (GPU mode)
is enabled — all strictly before the worker thread is started. -/
theorem setup_warmup_before_thread_start (ol g : Bool) (N : Nat) :
    BasePrefetchingDataLayer.LayerSetUp ol g N =
        setupWarmUpActions ol g N ++ [SetupAction.startInternalThread] ∧
      SetupAction.startInternalThread ∉ setupWarmUpActions ol g N ∧
      (∀ i, i < N →
        SetupAction.touchHostStore i .data ∈ setupWarmUpActions ol g N) ∧
      (ol = true → ∀ i, i < N → ∀ a ∈ allArrays,
        SetupAction.touchHostStore i a ∈ setupWarmUpActions ol g N) ∧
      (g = true → ∀ i, i < N →
        SetupAction.touchDeviceStore i .data ∈ setupWarmUpActions ol g N) ∧
      (g = true → ol = true → ∀ i, i < N → ∀ a ∈ allArrays,
        SetupAction.touchDeviceStore i a ∈ setupWarmUpActions ol g N) := by
  refine ⟨rfl, ?_, ?_, ?_, ?_, ?_⟩
  · cases g <;> cases ol <;>
      simp [setupWarmUpActions, hostWarmUp, deviceWarmUp, List.mem_flatMap]
  · intro i hi
    exact List.mem_cons_of_mem _ (List.mem_append_left _
      (List.mem_append_left _ (mem_hostWarmUp_data hi ol)))
  · intro hol i hi a ha
    subst hol
    exact List.mem_cons_of_mem _ (List.mem_append_left _
      (List.mem_append_left _ (mem_hostWarmUp hi ha)))
  · intro hg i hi
    subst hg
    refine List.mem_cons_of_mem _ (List.mem_append_left _
      (List.mem_append_right _ ?_))
    simp only [if_true]
    exact mem_deviceWarmUp_data hi ol
  · intro hg hol i hi a ha
    subst hg
    subst hol
    refine List.mem_cons_of_mem _ (List.mem_append_left _
      (List.mem_append_right _ ?_))
    simp only [if_true]
    exact mem_deviceWarmUp hi ha

/-!
## Theorems: the consumer accessor (C4, C5)
-/

/-- ReshapeLike followed by caffe_copy of count() elements makes the
destination an exact copy of a well formed source blob, whatever the
destination held before. -/
theorem reshapeAndCopy_wf (dst src : Blob) (h : src.WF) :
    reshapeAndCopy dst src = ⟨src.shape, src.contents⟩ := by
  unfold reshapeAndCopy caffe_copy Blob.reshapeLike
  unfold Blob.WF at h
  rw [← h, List.take_length]

/-- Reduction of Forward_cpu on a non-empty full queue with labels
disabled. -/
theorem Forward_cpu_false (fre rest : List Batch) (b : Batch)
    (top : List Blob) :
    Forward_cpu ⟨fre, b :: rest, false⟩ top =
      some (⟨queuePush fre b, rest, false⟩,
        top.set 0 (reshapeAndCopy (top.getD 0 emptyBlob) b.data_)) :=
  rfl

/-- Reduction of Forward_cpu on a non-empty full queue with labels
enabled. -/
theorem Forward_cpu_true (fre rest : List Batch) (b : Batch)
    (top : List Blob) :
    Forward_cpu ⟨fre, b :: rest, true⟩ top =
      some (⟨queuePush fre b, rest, true⟩,
        (let top0 := top.set 0 (reshapeAndCopy (top.getD 0 emptyBlob) b.data_)
         let t1 := top0.set 1 (reshapeAndCopy (top0.getD 1 emptyBlob) b.label_)
         let t2 := t1.set 2 (reshapeAndCopy (t1.getD 2 emptyBlob) b.label1_)
         let t3 := t2.set 3 (reshapeAndCopy (t2.getD 3 emptyBlob) b.label2_)
         let t4 := t3.set 4 (reshapeAndCopy (t3.getD 4 emptyBlob) b.label3_)
         let t5 := t4.set 5 (reshapeAndCopy (t4.getD 5 emptyBlob) b.label4_)
         let t6 := t5.set 6 (reshapeAndCopy (t5.getD 6 emptyBlob) b.label5_)
         let t7 := t6.set 7 (reshapeAndCopy (t6.getD 7 emptyBlob) b.label6_)
         let t8 := t7.set 8 (reshapeAndCopy (t7.getD 8 emptyBlob) b.imageindex_)
         t8.set 9 (reshapeAndCopy (t8.getD 9 emptyBlob) b.windowindex_))) :=
  rfl

/-- C4. Forward_cpu contract: a call finding batch `b` at the head of
the full queue pops it, pushes the same slot back onto the free queue
(tail), leaves output_labels_ unchanged, and produces a top vector in
which top[0] has been reshaped to the data blob shape and filled with
its contents; when labels are enabled, top[1]..top[9] likewise carry the
nine secondary blobs in the fixed array order, and entries beyond the
written ones are untouched. The operation trace starts with the
diagnostic-labelled blocking pop, ends with the free-queue push, and
reshapes every destination before copying into it. -/
theorem Forward_cpu_spec (st : LayerState) (top : List Blob) (b : Batch)
    (rest : List Batch) (hq : st.prefetch_full_ = b :: rest) (hwf : b.WF)
    (hlen : (if st.output_labels_ = true then 10 else 1) ≤ top.length) :
    ∃ top2, Forward_cpu st top =
        some (⟨queuePush st.prefetch_free_ b, rest, st.output_labels_⟩,
          top2) ∧
      top2.length = top.length ∧
      top2[0]? = some ⟨b.data_.shape, b.data_.contents⟩ ∧
      (st.output_labels_ = true → ∀ k, k < 10 →
        top2[k]? = some ⟨(b.arr (allArrays.getD k .data)).shape,
          (b.arr (allArrays.getD k .data)).contents⟩) ∧
      (∀ k, (if st.output_labels_ = true then 10 else 1) ≤ k →
        top2[k]? = top[k]?) ∧
      (forwardActions st.output_labels_).head? =
        some (.popFull "Data layer prefetch queue empty") ∧
      (forwardActions st.output_labels_).getLast? = some .pushFree ∧
      (∀ a ∈ (if st.output_labels_ = true then allArrays
          else [ArrayId.data]),
        (forwardActions st.output_labels_).indexOf
            (AccessorAction.reshape a) <
          (forwardActions st.output_labels_).indexOf
            (AccessorAction.copy a)) := by
  obtain ⟨fre, ful, ol⟩ := st
  simp only at hq hlen ⊢
  subst hq
  have h0 : b.data_.WF := hwf .data (by decide)
  cases ol with
  | false =>
      have hlen1 : 1 ≤ top.length := by simpa using hlen
      simp only [Forward_cpu_false, reshapeAndCopy_wf _ _ h0]
      refine ⟨_, rfl, ?_, ?_, ?_, ?_, ?_, ?_, ?_⟩
      · simp [List.length_set]
      · rw [List.getElem?_set_self (by omega)]
      · intro hol
        exact absurd hol (by decide)
      · intro k hk
        replace hk : 1 ≤ k := by simpa using hk
        rw [List.getElem?_set_ne (by omega)]
      · decide
      · decide
      · exact (by decide :
          ∀ a ∈ (if false = true then allArrays else [ArrayId.data]),
            (forwardActions false).indexOf (AccessorAction.reshape a) <
              (forwardActions false).indexOf (AccessorAction.copy a))
  | true =>
      have hlen10 : 10 ≤ top.length := by simpa using hlen
      have hk10 : ∀ j, j < 10 → j < top.length := fun j hj => by omega
      have h1 : b.label_.WF := hwf .label (by decide)
      have h2 : b.label1_.WF := hwf .label1 (by decide)
      have h3 : b.label2_.WF := hwf .label2 (by decide)
      have h4 : b.label3_.WF := hwf .label3 (by decide)
      have h5 : b.label4_.WF := hwf .label4 (by decide)
      have h6 : b.label5_.WF := hwf .label5 (by decide)
      have h7 : b.label6_.WF := hwf .label6 (by decide)
      have h8 : b.imageindex_.WF := hwf .imageindex (by decide)
      have h9 : b.windowindex_.WF := hwf .windowindex (by decide)
      simp only [Forward_cpu_true, reshapeAndCopy_wf, h0, h1, h2, h3, h4,
        h5, h6, h7, h8, h9]
      refine ⟨_, rfl, ?_, ?_, ?_, ?_, ?_, ?_, ?_⟩
      · simp [List.length_set]
      · simp [List.getElem?_set_ne, List.getElem?_set_self,
          List.length_set, hk10]
      · intro _ k hk
        interval_cases k <;>
          simp [List.getElem?_set_ne, List.getElem?_set_self,
            List.length_set, hk10, allArrays, secondaryArrays, Batch.arr]
      · intro k hk
        replace hk : 10 ≤ k := by simpa using hk
        repeat rw [List.getElem?_set_ne (by omega)]
      · decide
      · decide
      · exact (by decide :
          ∀ a ∈ (if true = true then allArrays else [ArrayId.data]),
            (forwardActions true).indexOf (AccessorAction.reshape a) <
              (forwardActions true).indexOf (AccessorAction.copy a))

/-- C4 witness: the contract evaluated on a concrete call with labels
enabled, a ten-entry top vector and the sample batch. -/
theorem Forward_cpu_spec_witness :
    ∃ top2, Forward_cpu (sampleState true) sampleTop =
        some (⟨queuePush (sampleState true).prefetch_free_ sampleBatch,
          [], (sampleState true).output_labels_⟩, top2) ∧
      top2.length = sampleTop.length ∧
      top2[0]? = some ⟨sampleBatch.data_.shape,
        sampleBatch.data_.contents⟩ ∧
      ((sampleState true).output_labels_ = true → ∀ k, k < 10 →
        top2[k]? = some ⟨(sampleBatch.arr (allArrays.getD k .data)).shape,
          (sampleBatch.arr (allArrays.getD k .data)).contents⟩) ∧
      (∀ k, (if (sampleState true).output_labels_ = true then 10 else 1)
          ≤ k → top2[k]? = sampleTop[k]?) ∧
      (forwardActions (sampleState true).output_labels_).head? =
        some (.popFull "Data layer prefetch queue empty") ∧
      (forwardActions (sampleState true).output_labels_).getLast? =
        some .pushFree ∧
      (∀ a ∈ (if (sampleState true).output_labels_ = true then allArrays
          else [ArrayId.data]),
        (forwardActions (sampleState true).output_labels_).indexOf
            (AccessorAction.reshape a) <
          (forwardActions (sampleState true).output_labels_).indexOf
            (AccessorAction.copy a)) :=
  Forward_cpu_spec (sampleState true) sampleTop sampleBatch []
    rfl (by decide) (by decide)

/-- C5. Label toggling frame condition: with labels disabled a call of
Forward_cpu only reshapes and copies top[0]; the resulting top vector is
the input with only entry 0 replaced, every other destination is
unchanged, and the operation trace contains no reshape and no copy of
any secondary array. -/
theorem Forward_cpu_labels_disabled_frame (st : LayerState)
    (top : List Blob) (b : Batch) (rest : List Batch)
    (hq : st.prefetch_full_ = b :: rest)
    (hol : st.output_labels_ = false) :
    Forward_cpu st top =
        some (⟨queuePush st.prefetch_free_ b, rest, false⟩,
          top.set 0 (reshapeAndCopy (top.getD 0 emptyBlob) b.data_)) ∧
      (∀ k, k ≠ 0 →
        (top.set 0 (reshapeAndCopy (top.getD 0 emptyBlob) b.data_))[k]?
          = top[k]?) ∧
      (∀ a ∈ secondaryArrays,
        AccessorAction.reshape a ∉ forwardActions false ∧
          AccessorAction.copy a ∉ forwardActions false) := by
  obtain ⟨fre, ful, ol⟩ := st
  simp only at hq hol
  subst hq
  subst hol
  refine ⟨rfl, ?_, by decide⟩
  intro k hk
  simp only [List.getElem?_set]
  rw [if_neg (by omega)]

/-- C5 witness: the frame condition evaluated on a concrete call with
labels disabled. -/
theorem Forward_cpu_labels_disabled_frame_witness :
    Forward_cpu (sampleState false) sampleTop =
        some (⟨queuePush (sampleState false).prefetch_free_ sampleBatch,
          [], false⟩,
          sampleTop.set 0
            (reshapeAndCopy (sampleTop.getD 0 emptyBlob)
              sampleBatch.data_)) ∧
      (∀ k, k ≠ 0 →
        (sampleTop.set 0
          (reshapeAndCopy (sampleTop.getD 0 emptyBlob)
            sampleBatch.data_))[k]? = sampleTop[k]?) ∧
      (∀ a ∈ secondaryArrays,
        AccessorAction.reshape a ∉ forwardActions false ∧
          AccessorAction.copy a ∉ forwardActions false) :=
  Forward_cpu_labels_disabled_frame (sampleState false) sampleTop
    sampleBatch [] rfl rfl

/-- C9 witness: the warm-up ordering with labels and GPU staging enabled
and PREFETCH_COUNT = 3 slots. -/
theorem setup_warmup_before_thread_start_witness :
    BasePrefetchingDataLayer.LayerSetUp true true 3 =
        setupWarmUpActions true true 3 ++ [SetupAction.startInternalThread] ∧
      SetupAction.startInternalThread ∉ setupWarmUpActions true true 3 ∧
      (∀ i, i < 3 →
        SetupAction.touchHostStore i .data ∈ setupWarmUpActions true true 3) ∧
      (true = true → ∀ i, i < 3 → ∀ a ∈ allArrays,
        SetupAction.touchHostStore i a ∈ setupWarmUpActions true true 3) ∧
      (true = true → ∀ i, i < 3 →
        SetupAction.touchDeviceStore i .data ∈ setupWarmUpActions true true 3) ∧
      (true = true → true = true → ∀ i, i < 3 → ∀ a ∈ allArrays,
        SetupAction.touchDeviceStore i a ∈ setupWarmUpActions true true 3) :=
  setup_warmup_before_thread_start true true 3

end Caffe
